import Mathlib

set_option maxRecDepth 8000

namespace AlphaZeroNano

/- Shallow embedding of src/agent.py (class AlphaZeroNano).

   The game and the torch network are external collaborators of agent.py:
   a Game record supplies the game-rule operations agent.py calls, and a
   Net record supplies the predict operation.  Machine floats of the
   source are modelled as rationals.  Python loops that the source does
   not bound get explicit fuel and return none when the fuel runs out,
   which models non-termination of the corresponding while loop. -/

/-- The game interface exactly as agent.py uses it: getInitBoard
(lines 157, 195); the module-level getGameEnded(board, player) used in
the self_play loop test (line 197); the zero-argument state method
getGameEnded() used in play_game (lines 160, 175, 177) and for the
terminal result of self_play (line 218), modelled as stateGameEnded;
getActionSize (line 209); and getNextState (lines 168, 213), which
returns the next state and the next player.  A getGameEnded value of 0
means the game is not over (Python truthiness in lines 160 and 197). -/
structure Game (σ : Type) where
  getInitBoard : σ
  getGameEnded : σ → Int → Int
  stateGameEnded : σ → Int
  getActionSize : Nat
  getNextState : σ → Int → Nat → σ × Int

/-- A torch network as agent.py sees it: predict returns a policy vector
and a scalar value (lines 162-164). -/
structure Net (σ : Type) where
  predict : σ → List Rat × Rat

instance netInhabited (σ : Type) : Inhabited (Net σ) :=
  ⟨⟨fun _ => ([], 0)⟩⟩

/-- torch.max(policy, dim=-1) on line 166: the index of the first
maximal entry of the policy vector (deterministic tie-breaking). -/
def argmaxAux : List Rat → Nat → Nat → Rat → Nat
  | [], _, best, _ => best
  | x :: xs, i, best, bestVal =>
    if bestVal < x then argmaxAux xs (i + 1) i x
    else argmaxAux xs (i + 1) best bestVal

def argmax : List Rat → Nat
  | [] => 0
  | x :: xs => argmaxAux xs 1 0 x

/-- Lines 174-177 of play_game: after the game loop ends, the code
branches on the final player and returns game_state.getGameEnded() on
both arms. -/
def playGameReturn (g : Game σ) (s : σ) (player : Int) : Int :=
  if player = -1 then g.stateGameEnded s else g.stateGameEnded s

/-- The while loop of play_game (lines 160-172): while the state method
getGameEnded() is 0 (falsy), the player whose turn it is predicts a
policy, the argmax action is taken and the state and player advance.
Fuel bounds the unbounded Python loop; none models non-termination. -/
def playGameAux (g : Game σ) (na nb : Net σ) : Nat → σ → Int → Option Int
  | 0, s, p =>
    if g.stateGameEnded s = 0 then none else some (playGameReturn g s p)
  | fuel + 1, s, p =>
    if g.stateGameEnded s = 0 then
      let policy := (if p = 1 then na.predict s else nb.predict s).1
      let sp := g.getNextState s p (argmax policy)
      playGameAux g na nb fuel sp.1 sp.2
    else some (playGameReturn g s p)

/-- play_game (lines 146-177): starts from the initial board with
player 1. -/
def playGame (g : Game σ) (na nb : Net σ) (fuel : Nat) : Option Int :=
  playGameAux g na nb fuel g.getInitBoard 1

/-- The for loop of evaluate_networks (lines 99-104): play numGames
games and count those with a strictly positive result for network_a. -/
def arenaWins (g : Game σ) (na nb : Net σ) (fuel : Nat) : Nat → Option Nat
  | 0 => some 0
  | n + 1 =>
    match arenaWins g na nb fuel n with
    | none => none
    | some w =>
      match playGame g na nb fuel with
      | none => none
      | some r => some (if 0 < r then w + 1 else w)

/-- Possible outcomes of evaluate_networks: a game loop that never ends
(diverge), the ZeroDivisionError of line 106 when num_games = 0
(divByZero), or the returned network (winner). -/
inductive ArenaOutcome (σ : Type) where
  | diverge : ArenaOutcome σ
  | divByZero : ArenaOutcome σ
  | winner : Net σ → ArenaOutcome σ

/-- evaluate_networks (lines 80-111): tally wins of network_a, compute
win_rate = wins / num_games (line 106, an exception when num_games = 0),
return network_a when win_rate > threshold, else network_b. -/
def evaluateNetworks (g : Game σ) (na nb : Net σ) (fuel numGames : Nat)
    (threshold : Rat) : ArenaOutcome σ :=
  match arenaWins g na nb fuel numGames with
  | none => ArenaOutcome.diverge
  | some wins =>
    if numGames = 0 then ArenaOutcome.divByZero
    else if threshold < (wins : Rat) / (numGames : Rat) then
      ArenaOutcome.winner na
    else ArenaOutcome.winner nb

/-- A (state, policy, result) triple appended on line 220. -/
abbrev TrainingExample (σ : Type) := σ × List Rat × Int

/-- The while loop of self_play (lines 197-216): while the module-level
getGameEnded(board, player) is 0, run the search (pol abstracts
apv_mcts applied to the fixed game, model, simulation count and
exploration constant), record (state, policy), sample an action
(acts t abstracts the categorical draw of np.random.choice at step t)
and advance the state and player.  On exit the terminal result is read
once from the state method getGameEnded() (line 218). -/
def selfPlayEpisodeAux (g : Game σ) (pol : σ → List Rat) (acts : Nat → Nat) :
    Nat → Nat → σ → Int → List (σ × List Rat) →
    Option (List (σ × List Rat) × Int)
  | 0, _, s, p, acc =>
    if g.getGameEnded s p = 0 then none else some (acc, g.stateGameEnded s)
  | fuel + 1, t, s, p, acc =>
    if g.getGameEnded s p = 0 then
      let policy := pol s
      let sp := g.getNextState s p (acts t)
      selfPlayEpisodeAux g pol acts fuel (t + 1) sp.1 sp.2 (acc ++ [(s, policy)])
    else some (acc, g.stateGameEnded s)

/-- One episode of self_play (lines 194-218): fresh initial board,
player 1, empty list of recorded states. -/
def selfPlayEpisode (g : Game σ) (pol : σ → List Rat) (acts : Nat → Nat)
    (fuel : Nat) : Option (List (σ × List Rat) × Int) :=
  selfPlayEpisodeAux g pol acts fuel 0 g.getInitBoard 1 []

/-- self_play (lines 179-222): num_episodes episodes; after each, the
single terminal result read on line 218 is attached unmodified to every
recorded (state, policy) pair (lines 219-220).  acts n is the random
stream of episode n. -/
def selfPlay (g : Game σ) (pol : σ → List Rat) (acts : Nat → Nat → Nat)
    (fuel : Nat) : Nat → Option (List (TrainingExample σ))
  | 0 => some []
  | n + 1 =>
    match selfPlay g pol acts fuel n with
    | none => none
    | some pre =>
      match selfPlayEpisode g pol (acts n) fuel with
      | none => none
      | some ep => some (pre ++ ep.1.map (fun q => (q.1, q.2, ep.2)))

/-- The shape check torch.tensor performs on line 238: every policy row
must have the length of the first row, else ValueError. -/
def homogeneousPolicies (data : List (TrainingExample σ)) : Bool :=
  match data with
  | [] => true
  | e :: rest => rest.all (fun f => f.2.1.length == e.2.1.length)

/-- DataLoader batching (line 242): split a list into consecutive
chunks of size bs, the last possibly shorter.  Fuel is the list length;
bs = 0 would not be accepted by DataLoader. -/
def chunkAux (bs : Nat) : Nat → List α → List (List α)
  | 0, _ => []
  | _, [] => []
  | fuel + 1, x :: xs =>
    ((x :: xs).take bs) :: chunkAux bs fuel ((x :: xs).drop bs)

def chunkList (bs : Nat) (l : List α) : List (List α) :=
  chunkAux bs l.length l

/-- One mini-batch yielded by the DataLoader: the stacked states,
stacked policy targets and stacked outcomes of one chunk, index-aligned
because TensorDataset (line 241) indexes all three tensors by the same
example index. -/
def toBatch (chunk : List (TrainingExample σ)) :
    List σ × List (List Rat) × List Int :=
  (chunk.map (fun e => e.1), chunk.map (fun e => e.2.1),
    chunk.map (fun e => e.2.2))

/-- batch_episodes (lines 224-244).  zip(* []) on line 236 leaves
nothing to unpack into three names, a ValueError; torch.tensor on line
238 raises ValueError on ragged policy rows; otherwise the DataLoader
yields the chunks of a shuffled order of the examples (shuffle=True on
line 242 is modelled by passing the shuffled order explicitly). -/
def batchEpisodes (data : List (TrainingExample σ)) (batchSize : Nat)
    (shuffled : List (TrainingExample σ)) :
    Except String (List (List σ × List (List Rat) × List Int)) :=
  match data with
  | [] => Except.error "not enough values to unpack"
  | _ :: _ =>
    if homogeneousPolicies data then
      Except.ok ((chunkList batchSize shuffled).map toBatch)
    else Except.error "ValueError: expected sequence of uniform length"

/- The training loop (train, lines 37-78) mutates torch networks
through object references: copy.deepcopy(current_network) on line 64
creates an independent object, and self.optimizer.step() inside
retrain_nn writes the parameters the optimizer was constructed over.
This is modelled by a store of network values indexed by handles. -/

/-- copy.deepcopy on line 64: allocate a fresh handle holding a copy of
the value at handle h. -/
def deepcopy (store : List (Net σ)) (h : Nat) : List (Net σ) × Nat :=
  (store ++ [store.getD h default], store.length)

/-- retrain_nn (lines 113-144): reads predictions of the network passed
as neural_network (handle netHandle) and steps self.optimizer, which
writes the parameters it holds (handle optHandle).  The numeric content
of the gradient passes is external torch code, abstracted by upd. -/
def retrainNN (store : List (Net σ)) (netHandle optHandle : Nat)
    (upd : Net σ → Net σ → List (TrainingExample σ) → Net σ)
    (data : List (TrainingExample σ)) : List (Net σ) :=
  store.set optHandle
    (upd (store.getD netHandle default) (store.getD optHandle default) data)

/-- evaluate_networks lifted to store handles: same tally and the same
win-rate gate as evaluateNetworks, returning the chosen handle.  none
models the exceptional paths (divergence, ZeroDivisionError). -/
def evalHandles (g : Game σ) (store : List (Net σ)) (ha hb : Nat)
    (fuel numGames : Nat) (threshold : Rat) : Option Nat :=
  match arenaWins g (store.getD ha default) (store.getD hb default) fuel
      numGames with
  | none => none
  | some wins =>
    if numGames = 0 then none
    else if threshold < (wins : Rat) / (numGames : Rat) then some ha
    else some hb

/-- The three phases executed by one iteration of the training loop. -/
inductive Phase where
  | selfPlayPhase : Phase
  | retrainPhase : Phase
  | arenaPhase : Phase

/-- One iteration of the for loop of train (lines 58-76), in source
order: self_play with the current network (lines 59-62), deepcopy the
current network as old_network (line 64), retrain_nn on the current
network with the optimizer writing optHandle (lines 66-70), then
evaluate_networks(current, old, 10) with the default threshold 0.6
(lines 72-76) to pick the network carried forward. -/
def epochBody (g : Game σ) (mcts : Net σ → σ → List Rat)
    (acts : Nat → Nat → Nat)
    (upd : Net σ → Net σ → List (TrainingExample σ) → Net σ)
    (optHandle fuel numEpisodes : Nat) (store : List (Net σ)) (cur : Nat) :
    Option (List (Net σ) × Nat) :=
  match selfPlay g (mcts (store.getD cur default)) acts fuel numEpisodes with
  | none => none
  | some exs =>
    let dc := deepcopy store cur
    let store2 := retrainNN dc.1 cur optHandle upd exs
    match evalHandles g store2 cur dc.2 fuel 10 (6 / 10 : Rat) with
    | none => none
    | some next => some (store2, next)

/-- The for loop of train (lines 58-76), iterated num_epochs times,
also logging which phases ran. -/
def trainAux (g : Game σ) (mcts : Net σ → σ → List Rat)
    (acts : Nat → Nat → Nat)
    (upd : Net σ → Net σ → List (TrainingExample σ) → Net σ)
    (optHandle fuel numEpisodes : Nat) :
    Nat → List (Net σ) → Nat → List Phase →
    Option (Nat × List (Net σ) × List Phase)
  | 0, store, cur, tr => some (cur, store, tr)
  | n + 1, store, cur, tr =>
    match epochBody g mcts acts upd optHandle fuel numEpisodes store cur with
    | none => none
    | some sn =>
      trainAux g mcts acts upd optHandle fuel numEpisodes n sn.1 sn.2
        (tr ++ [Phase.selfPlayPhase, Phase.retrainPhase, Phase.arenaPhase])

/-- train (lines 37-78): current_network starts as the input network
(line 56) and the loop runs num_epochs times; the final current network
is returned (line 78).  The result also carries the final store and the
log of executed phases. -/
def train (g : Game σ) (mcts : Net σ → σ → List Rat)
    (acts : Nat → Nat → Nat)
    (upd : Net σ → Net σ → List (TrainingExample σ) → Net σ)
    (optHandle fuel numEpisodes numEpochs : Nat) (store : List (Net σ))
    (cur : Nat) : Option (Nat × List (Net σ) × List Phase) :=
  trainAux g mcts acts upd optHandle fuel numEpisodes numEpochs store cur []

/- Concrete fixtures used to evaluate the embedding on closed inputs. -/

/-- A game over as soon as it starts, with terminal value -1 for every
read. -/
def termGame : Game Nat where
  getInitBoard := 0
  getGameEnded := fun _ _ => -1
  stateGameEnded := fun _ => -1
  getActionSize := 1
  getNextState := fun s p _ => (s + 1, -p)

/-- A two-move game: states count moves played, players alternate, and
the game ends at state 2 with terminal value 1. -/
def stepGame : Game Nat where
  getInitBoard := 0
  getGameEnded := fun s _ => if 2 ≤ s then 1 else 0
  stateGameEnded := fun s => if 2 ≤ s then 1 else 0
  getActionSize := 1
  getNextState := fun s p _ => (s + 1, -p)

def cnetA : Net Nat := ⟨fun _ => ([1], 0)⟩

def cnetB : Net Nat := ⟨fun _ => ([1], 0)⟩

def cnetA2 : Net Nat := ⟨fun _ => ([1], 0)⟩

def cnetB2 : Net Nat := ⟨fun _ => ([1], 0)⟩

def sampleData : List (TrainingExample Nat) :=
  [(0, [1, 0], 1), (1, [1, 0], 0), (2, [1, 0], -1)]

def raggedData : List (TrainingExample Nat) :=
  [(0, [1], 1), (1, [1, 0], 1)]

/- Helper lemmas shared by the claim theorems. -/

theorem selfPlayEpisodeAux_terminal (g : Game σ) (pol : σ → List Rat)
    (acts : Nat → Nat) (fuel t : Nat) (s : σ) (p : Int)
    (acc : List (σ × List Rat)) (h : g.getGameEnded s p ≠ 0) :
    selfPlayEpisodeAux g pol acts fuel t s p acc =
      some (acc, g.stateGameEnded s) := by
  cases fuel <;> simp [selfPlayEpisodeAux, h]

/-- C3: running the training orchestrator (train) with num_epochs = 0
performs no self-play, no retraining and no arena evaluation (the phase
log is empty) and returns the initial evaluator unchanged (the same
handle over an unchanged store). -/
theorem train_zero_epochs_identity (g : Game σ) (mcts : Net σ → σ → List Rat)
    (acts : Nat → Nat → Nat)
    (upd : Net σ → Net σ → List (TrainingExample σ) → Net σ)
    (optHandle fuel numEpisodes : Nat) (store : List (Net σ)) (cur : Nat) :
    train g mcts acts upd optHandle fuel numEpisodes 0 store cur =
      some (cur, store, []) := rfl

/-- C10: evaluate_networks with num_games = 0 runs zero games and then
fails with ZeroDivisionError at the win_rate computation of line 106,
before returning either network. -/
theorem evaluateNetworks_zero_games_divByZero (g : Game σ) (na nb : Net σ)
    (fuel : Nat) (threshold : Rat) :
    evaluateNetworks g na nb fuel 0 threshold = ArenaOutcome.divByZero := rfl

/-- C9: the per-player branch on lines 174-177 of play_game returns the
same value on both arms: the returned terminal result does not depend on
which arm of the final player test is taken, and always equals the
single state-method terminal read, so no player is special-cased. -/
theorem playGameReturn_branch_free (g : Game σ) (s : σ) (p q : Int) :
    playGameReturn g s p = playGameReturn g s q ∧
      playGameReturn g s p = g.stateGameEnded s := by
  constructor <;> simp [playGameReturn]

/-- C6: when the initial board is already terminal, every self-play
episode records no states and contributes no training examples, and
self_play returns normally with the empty list for any number of
episodes. -/
theorem selfPlay_terminal_initial_empty (g : Game σ) (pol : σ → List Rat)
    (acts : Nat → Nat → Nat) (fuel : Nat)
    (h : g.getGameEnded g.getInitBoard 1 ≠ 0) (n : Nat) :
    selfPlay g pol acts fuel n = some [] := by
  induction n with
  | zero => rfl
  | succ k ih =>
    have he := selfPlayEpisodeAux_terminal g pol (acts k) fuel 0
      g.getInitBoard 1 [] h
    simp [selfPlay, ih, selfPlayEpisode, he]

theorem selfPlay_terminal_initial_empty_witness :
    termGame.getGameEnded termGame.getInitBoard 1 ≠ 0 ∧
      selfPlay termGame (fun _ => []) (fun _ _ => 0) 0 3 = some [] :=
  ⟨by decide, selfPlay_terminal_initial_empty termGame (fun _ => [])
    (fun _ _ => 0) 0 (by decide) 3⟩

/-- C7: the embedded play_game selects actions by argmax, with no random
draw, so the arena is a pure function of its inputs: two runs with
pointwise-equal (deterministic) evaluators produce identical win tallies
and the same winner. -/
theorem evaluateNetworks_deterministic (g : Game σ) (na nb na2 nb2 : Net σ)
    (fuel n : Nat) (threshold : Rat)
    (ha : ∀ s, na.predict s = na2.predict s)
    (hb : ∀ s, nb.predict s = nb2.predict s) :
    arenaWins g na nb fuel n = arenaWins g na2 nb2 fuel n ∧
      evaluateNetworks g na nb fuel n threshold =
        evaluateNetworks g na2 nb2 fuel n threshold := by
  have ea : na = na2 := by
    cases na with
    | mk f =>
      cases na2 with
      | mk f2 =>
        have hf : f = f2 := funext ha
        rw [hf]
  have eb : nb = nb2 := by
    cases nb with
    | mk f =>
      cases nb2 with
      | mk f2 =>
        have hf : f = f2 := funext hb
        rw [hf]
  rw [ea, eb]
  exact ⟨rfl, rfl⟩

theorem evaluateNetworks_deterministic_witness :
    (∀ s : Nat, cnetA.predict s = cnetA2.predict s) ∧
      (arenaWins termGame cnetA cnetB 1 10 =
          arenaWins termGame cnetA2 cnetB2 1 10 ∧
        evaluateNetworks termGame cnetA cnetB 1 10 (6 / 10) =
          evaluateNetworks termGame cnetA2 cnetB2 1 10 (6 / 10)) :=
  ⟨fun _ => rfl,
    evaluateNetworks_deterministic termGame cnetA cnetB cnetA2 cnetB2 1 10
      (6 / 10) (fun _ => rfl) (fun _ => rfl)⟩

/-- C2: a concrete run of self_play on stepGame, where the two recorded
states 0 and 1 belong to player 1 and player -1 respectively: both
resulting training examples carry the same terminal outcome 1, the one
read of line 218 attached unmodified on line 220, and 1 is not the
additive inverse of 1, so the outcome fields of opposite-turn examples
of one game are equal, not sign-flipped as the claim states. -/
theorem selfPlay_outcomes_not_inverted :
    selfPlay stepGame (fun _ => [1]) (fun _ _ => 0) 5 1 =
      some [(0, [1], 1), (1, [1], 1)] ∧ ¬ ((1 : Int) = -(1 : Int)) :=
  ⟨by decide, by decide⟩

theorem arenaWins_const (g : Game σ) (na nb : Net σ) (fuel : Nat) (r : Int)
    (hr : playGame g na nb fuel = some r) :
    ∀ n, arenaWins g na nb fuel n = some (if 0 < r then n else 0) := by
  intro n
  induction n with
  | zero => by_cases h0 : 0 < r <;> simp [arenaWins, h0]
  | succ k ih => by_cases h0 : 0 < r <;> simp [arenaWins, ih, hr, h0]

theorem evaluateNetworks_gate (g : Game σ) (na nb : Net σ) (fuel n : Nat)
    (threshold : Rat) (wins : Nat) (hw : arenaWins g na nb fuel n = some wins)
    (hn0 : n ≠ 0) :
    evaluateNetworks g na nb fuel n threshold =
      (if threshold < (wins : Rat) / (n : Rat) then ArenaOutcome.winner na
       else ArenaOutcome.winner nb) := by
  simp [evaluateNetworks, hw, hn0]

/-- C1: for num_games >= 1, evaluate_networks tallies exactly the games
whose result is a strictly positive (challenger-winning) value, neither
draws (0) nor losses, computes win_rate = wins / num_games, returns the
challenger network_a exactly when win_rate is strictly greater than the
threshold, and in particular returns the incumbent network_b when
win_rate equals the threshold.  Every arena game is the same pure
play_game computation, assumed here to finish with result r. -/
theorem evaluateNetworks_tally_gate (g : Game σ) (na nb : Net σ)
    (fuel n : Nat) (threshold : Rat) (r : Int) (hn : 1 ≤ n)
    (hr : playGame g na nb fuel = some r) :
    ∃ wins : Nat,
      arenaWins g na nb fuel n = some wins ∧
      wins = (if 0 < r then n else 0) ∧
      evaluateNetworks g na nb fuel n threshold =
        (if threshold < (wins : Rat) / (n : Rat) then ArenaOutcome.winner na
         else ArenaOutcome.winner nb) ∧
      ((wins : Rat) / (n : Rat) = threshold →
        evaluateNetworks g na nb fuel n threshold = ArenaOutcome.winner nb) := by
  have hw := arenaWins_const g na nb fuel r hr n
  have hn0 : n ≠ 0 := by omega
  refine ⟨if 0 < r then n else 0, hw, rfl,
    evaluateNetworks_gate g na nb fuel n threshold _ hw hn0, ?_⟩
  intro heq
  rw [evaluateNetworks_gate g na nb fuel n threshold _ hw hn0, heq]
  simp

theorem evaluateNetworks_tally_gate_witness :
    (1 ≤ 10) ∧ playGame termGame cnetA cnetB 1 = some (-1) ∧
      (∃ wins : Nat,
        arenaWins termGame cnetA cnetB 1 10 = some wins ∧
        wins = (if (0 : Int) < -1 then 10 else 0) ∧
        evaluateNetworks termGame cnetA cnetB 1 10 (6 / 10) =
          (if (6 / 10 : Rat) < (wins : Rat) / ((10 : Nat) : Rat) then
            ArenaOutcome.winner cnetA
           else ArenaOutcome.winner cnetB) ∧
        ((wins : Rat) / ((10 : Nat) : Rat) = (6 / 10 : Rat) →
          evaluateNetworks termGame cnetA cnetB 1 10 (6 / 10) =
            ArenaOutcome.winner cnetB)) :=
  ⟨by decide, by decide,
    evaluateNetworks_tally_gate termGame cnetA cnetB 1 10 (6 / 10) (-1)
      (by decide) (by decide)⟩

theorem homogeneous_all_eq (data : List (TrainingExample σ))
    (h : homogeneousPolicies data = true) :
    ∀ a ∈ data, ∀ b ∈ data, a.2.1.length = b.2.1.length := by
  match data with
  | [] =>
    intro a ha
    simp at ha
  | e :: rest =>
    have h2 : rest.all (fun f => f.2.1.length == e.2.1.length) = true := h
    have hall : ∀ f ∈ rest, f.2.1.length = e.2.1.length := by
      intro f hf
      have h3 := List.all_eq_true.mp h2 f hf
      simpa using h3
    intro a ha b hb
    rcases List.mem_cons.mp ha with rfl | ha2
    · rcases List.mem_cons.mp hb with rfl | hb2
      · rfl
      · exact (hall b hb2).symm
    · rcases List.mem_cons.mp hb with rfl | hb2
      · exact hall a ha2
      · exact (hall a ha2).trans (hall b hb2).symm

/-- C5: when the training examples contain two examples whose policy
targets have different lengths, batch_episodes hits the ValueError that
torch.tensor raises on a ragged nested sequence (line 238) instead of
producing mini-batches. -/
theorem batchEpisodes_ragged_error (data shuffled : List (TrainingExample σ))
    (batchSize : Nat) (e1 e2 : TrainingExample σ) (h1 : e1 ∈ data)
    (h2 : e2 ∈ data) (hne : e1.2.1.length ≠ e2.2.1.length) :
    batchEpisodes data batchSize shuffled =
      Except.error "ValueError: expected sequence of uniform length" := by
  have hhom : homogeneousPolicies data = false := by
    cases hh : homogeneousPolicies data with
    | false => rfl
    | true => exact absurd (homogeneous_all_eq data hh e1 h1 e2 h2) hne
  cases data with
  | nil => cases h1
  | cons d ds => simp [batchEpisodes, hhom]

theorem batchEpisodes_ragged_error_witness :
    ((0 : Nat), ([1] : List Rat), (1 : Int)) ∈ raggedData ∧
      ((1 : Nat), ([1, 0] : List Rat), (1 : Int)) ∈ raggedData ∧
      ([(1 : Rat)].length ≠ [(1 : Rat), 0].length) ∧
      batchEpisodes raggedData 2 raggedData =
        Except.error "ValueError: expected sequence of uniform length" :=
  ⟨by decide, by decide, by decide,
    batchEpisodes_ragged_error raggedData raggedData 2 (0, [1], 1)
      (1, [1, 0], 1) (by decide) (by decide) (by decide)⟩

theorem chunkAux_join (bs : Nat) (hbs : 1 ≤ bs) :
    ∀ fuel (l : List α), l.length ≤ fuel → (chunkAux bs fuel l).join = l := by
  intro fuel
  induction fuel with
  | zero =>
    intro l hl
    have hnil : l = [] := List.eq_nil_of_length_eq_zero (Nat.le_zero.mp hl)
    subst hnil
    rfl
  | succ f ih =>
    intro l hl
    cases l with
    | nil => rfl
    | cons x xs =>
      have hd : ((x :: xs).drop bs).length ≤ f := by
        rw [List.length_drop]
        omega
      calc (chunkAux bs (f + 1) (x :: xs)).join
          = (x :: xs).take bs ++ (chunkAux bs f ((x :: xs).drop bs)).join := by
            simp [chunkAux]
        _ = (x :: xs).take bs ++ (x :: xs).drop bs := by
            rw [ih _ hd]
        _ = x :: xs := List.take_append_drop bs (x :: xs)

theorem chunkAux_get_length (bs : Nat) (hbs : 1 ≤ bs) :
    ∀ fuel (l : List α) i c, l.length ≤ fuel →
      (chunkAux bs fuel l).get? i = some c →
      c.length = min bs (l.length - bs * i) := by
  intro fuel
  induction fuel with
  | zero =>
    intro l i c hl hg
    simp [chunkAux] at hg
  | succ f ih =>
    intro l i c hl hg
    cases l with
    | nil => simp [chunkAux] at hg
    | cons x xs =>
      cases i with
      | zero =>
        have hg2 : some ((x :: xs).take bs) = some c := hg
        cases hg2
        simp [List.length_take]
      | succ j =>
        have hg2 : (chunkAux bs f ((x :: xs).drop bs)).get? j = some c := hg
        have hd : ((x :: xs).drop bs).length ≤ f := by
          rw [List.length_drop]
          omega
        have hlen := ih ((x :: xs).drop bs) j c hd hg2
        rw [hlen, List.length_drop, Nat.mul_succ, Nat.sub_sub,
          Nat.add_comm bs (bs * j)]

/-- C4: for a nonempty list of examples with homogeneous policy-target
lengths and batch_size >= 1, batch_episodes yields the mini-batches of
the consecutive chunks of a shuffled order of the examples: the chunks
joined together are a permutation of the input (no example dropped or
duplicated), the i-th chunk and hence all three fields of the i-th
mini-batch have leading dimension min(batch_size, remaining examples),
and the j-th state, policy target and outcome of any mini-batch are the
three fields of one single input example, so a triple is never
decoupled. -/
theorem batchEpisodes_preserves_examples
    (data shuffled : List (TrainingExample σ)) (bs : Nat) (hbs : 1 ≤ bs)
    (hne : data ≠ []) (hperm : shuffled.Perm data)
    (hhom : homogeneousPolicies data = true) :
    ∃ chunks : List (List (TrainingExample σ)),
      batchEpisodes data bs shuffled = Except.ok (chunks.map toBatch) ∧
      chunks.join.Perm data ∧
      (∀ i c, chunks.get? i = some c →
        c.length = min bs (data.length - bs * i)) ∧
      (∀ c ∈ chunks,
        (toBatch c).1.length = c.length ∧
        (toBatch c).2.1.length = c.length ∧
        (toBatch c).2.2.length = c.length ∧
        (∀ j e, c.get? j = some e →
          (toBatch c).1.get? j = some e.1 ∧
          (toBatch c).2.1.get? j = some e.2.1 ∧
          (toBatch c).2.2.get? j = some e.2.2) ∧
        (∀ e ∈ c, e ∈ data)) := by
  have hj : (chunkList bs shuffled).join = shuffled :=
    chunkAux_join bs hbs shuffled.length shuffled (Nat.le_refl _)
  refine ⟨chunkList bs shuffled, ?_, ?_, ?_, ?_⟩
  · cases data with
    | nil => exact absurd rfl hne
    | cons d ds => simp [batchEpisodes, hhom]
  · rw [hj]
    exact hperm
  · intro i c hg
    have hlen : c.length = min bs (shuffled.length - bs * i) :=
      chunkAux_get_length bs hbs shuffled.length shuffled i c (Nat.le_refl _) hg
    rw [hlen, hperm.length_eq]
  · intro c hc
    refine ⟨by simp [toBatch], by simp [toBatch], by simp [toBatch], ?_, ?_⟩
    · intro j e hg
      have h1 : (c.map (fun q => q.1)).get? j = some e.1 := by
        rw [List.get?_map, hg]
        rfl
      have h2 : (c.map (fun q => q.2.1)).get? j = some e.2.1 := by
        rw [List.get?_map, hg]
        rfl
      have h3 : (c.map (fun q => q.2.2)).get? j = some e.2.2 := by
        rw [List.get?_map, hg]
        rfl
      exact ⟨h1, h2, h3⟩
    · intro e he
      have hm : e ∈ (chunkList bs shuffled).join := List.mem_join.mpr ⟨c, hc, he⟩
      rw [hj] at hm
      exact hperm.mem_iff.mp hm

theorem batchEpisodes_preserves_examples_witness :
    (1 ≤ 2) ∧ sampleData ≠ [] ∧ sampleData.Perm sampleData ∧
      homogeneousPolicies sampleData = true ∧
      (∃ chunks : List (List (TrainingExample Nat)),
        batchEpisodes sampleData 2 sampleData = Except.ok (chunks.map toBatch) ∧
        chunks.join.Perm sampleData ∧
        (∀ i c, chunks.get? i = some c →
          c.length = min 2 (sampleData.length - 2 * i)) ∧
        (∀ c ∈ chunks,
          (toBatch c).1.length = c.length ∧
          (toBatch c).2.1.length = c.length ∧
          (toBatch c).2.2.length = c.length ∧
          (∀ j e, c.get? j = some e →
            (toBatch c).1.get? j = some e.1 ∧
            (toBatch c).2.1.get? j = some e.2.1 ∧
            (toBatch c).2.2.get? j = some e.2.2) ∧
          (∀ e ∈ c, e ∈ sampleData))) :=
  ⟨by decide, by decide, List.Perm.refl _, by decide,
    batchEpisodes_preserves_examples sampleData sampleData 2 (by decide)
      (by decide) (List.Perm.refl _) (by decide)⟩

theorem getD_set_ne (l : List α) (i j : Nat) (a d : α) (h : i ≠ j) :
    (l.set i a).getD j d = l.getD j d := by
  simp [List.getD_eq_getElem?_getD, List.getElem?_set_ne h]

theorem getD_append_length (l : List α) (x d : α) :
    (l ++ [x]).getD l.length d = x := by
  simp [List.getD_eq_getElem?_getD, List.getElem?_concat_length]

/-- C8: in one iteration of the train loop, old_network is a deep,
independent copy of the pre-training network (a fresh handle whose value
is the current network's value before retraining), retrain_nn writes
only the handle held by the optimizer and so leaves that copy unchanged,
and when the arena gate does not keep the current handle, the handle
carried into the next epoch is exactly the incumbent snapshot, whose
parameters equal the pre-training parameters of the challenger. -/
theorem epochBody_incumbent_independent (g : Game σ)
    (mcts : Net σ → σ → List Rat) (acts : Nat → Nat → Nat)
    (upd : Net σ → Net σ → List (TrainingExample σ) → Net σ)
    (optHandle fuel numEpisodes : Nat) (store : List (Net σ)) (cur : Nat)
    (store2 : List (Net σ)) (next : Nat) (hopt : optHandle < store.length)
    (heq : epochBody g mcts acts upd optHandle fuel numEpisodes store cur =
      some (store2, next)) :
    store2.getD store.length default = store.getD cur default ∧
      (next ≠ cur → next = store.length ∧
        store2.getD next default = store.getD cur default) := by
  unfold epochBody at heq
  cases hsp : selfPlay g (mcts (store.getD cur default)) acts fuel
      numEpisodes with
  | none =>
    rw [hsp] at heq
    exact absurd heq (by simp)
  | some exs =>
    rw [hsp] at heq
    simp only [deepcopy] at heq
    cases hev : evalHandles g
        (retrainNN (store ++ [store.getD cur default]) cur optHandle upd exs)
        cur store.length fuel 10 (6 / 10 : Rat) with
    | none =>
      rw [hev] at heq
      exact absurd heq (by simp)
    | some nx =>
      rw [hev] at heq
      simp only [Option.some.injEq, Prod.mk.injEq] at heq
      obtain ⟨h1, h2⟩ := heq
      subst h1
      subst h2
      have hmain : (retrainNN (store ++ [store.getD cur default]) cur optHandle
          upd exs).getD store.length default = store.getD cur default := by
        unfold retrainNN
        rw [getD_set_ne _ _ _ _ _ (Nat.ne_of_lt hopt)]
        exact getD_append_length store (store.getD cur default) default
      refine ⟨hmain, ?_⟩
      intro hnext
      unfold evalHandles at hev
      cases haw : arenaWins g
          ((retrainNN (store ++ [store.getD cur default]) cur optHandle upd
            exs).getD cur default)
          ((retrainNN (store ++ [store.getD cur default]) cur optHandle upd
            exs).getD store.length default) fuel 10 with
      | none =>
        rw [haw] at hev
        exact absurd hev (by simp)
      | some wins =>
        rw [haw] at hev
        simp only [Nat.succ_ne_zero, if_false, reduceIte] at hev
        by_cases hc : (6 / 10 : Rat) < (wins : Rat) / ((10 : Nat) : Rat)
        · rw [if_pos hc] at hev
          simp only [Option.some.injEq] at hev
          exact absurd hev.symm hnext
        · rw [if_neg hc] at hev
          simp only [Option.some.injEq] at hev
          subst hev
          exact ⟨rfl, hmain⟩

theorem epochBody_incumbent_independent_witness :
    (0 < [cnetA].length) ∧
      epochBody termGame (fun _ _ => []) (fun _ _ => 0) (fun a _ _ => a) 0 1 0
        [cnetA] 0 = some ([cnetA, cnetA], 1) ∧
      ([cnetA, cnetA].getD [cnetA].length default = [cnetA].getD 0 default ∧
        ((1 : Nat) ≠ 0 → (1 : Nat) = [cnetA].length ∧
          [cnetA, cnetA].getD 1 default = [cnetA].getD 0 default)) := by
  have heq : epochBody termGame (fun _ _ => []) (fun _ _ => 0) (fun a _ _ => a)
      0 1 0 [cnetA] 0 = some ([cnetA, cnetA], 1) := by
    simp [epochBody, deepcopy, retrainNN, evalHandles, arenaWins, playGame,
      playGameAux, playGameReturn, termGame, cnetA, selfPlay,
      show ¬ (6 / 10 : Rat) < 0 by norm_num]
  exact ⟨by decide, heq,
    epochBody_incumbent_independent termGame (fun _ _ => []) (fun _ _ => 0)
      (fun a _ _ => a) 0 1 0 [cnetA] 0 [cnetA, cnetA] 1 (by decide) heq⟩

end AlphaZeroNano
